import Mathlib

/-!
Verification of the dynamic foreign-function invocation engine in
`src/ctypes-foreign-base/ffi_call_stubs.c` (ocaml-ctypes).

The C code is shallowly embedded: the mutable `struct callspec` becomes a
Lean structure threaded through pure functions, `assert` failures become
`Option`/`Except` failures, raised exceptions become error values, and the
observable side effects of `ctypes_call` and `callback_handler` (runtime-lock
transitions, errno manipulation, the foreign dispatch, callback applications)
are recorded as explicit event traces.

Machine integers: `size_t` values are modelled as `Nat` (all values reachable
in the claims stay far below `2^64`, where `size_t` arithmetic agrees with
`Nat`), while the narrowing conversions through the 32-bit C `int` — which do
change results for large layouts — are modelled explicitly by `toCInt` /
`sizeOfInt` (two's-complement truncation to 32 bits, and conversion of a C
`int` back to `size_t` modulo `2^64`).
-/

/-- Two's-complement narrowing of a `size_t` value to a 32-bit C `int`,
as performed by `int offset = aligned_offset(...)` (line 230) and
`int roffset = callspec->roffset` (line 300). -/
def toCInt (n : Nat) : Int :=
  if n % 2 ^ 32 < 2 ^ 31 then ((n % 2 ^ 32 : Nat) : Int)
  else ((n % 2 ^ 32 : Nat) : Int) - 2 ^ 32

/-- Conversion of a C `int` back to `size_t` (reduction modulo `2^64`), as in
`callspec->bytes = offset + argtype->size` (line 231) where `offset` has type
`int` and the addition is carried out in `size_t`. -/
def sizeOfInt (i : Int) : Nat :=
  (i % (2 ^ 64 : Int)).toNat

/-- `aligned_offset` (lines 80-86): given an offset into a fully-aligned
buffer, compute the next offset that satisfies `alignment`.
The `overhang` local of the C source is `offset % alignment`. -/
def aligned_offset (offset alignment : Nat) : Nat :=
  if offset % alignment = 0 then offset
  else offset - offset % alignment + alignment

/-- An ffi type token: an opaque descriptor exposing a size and an alignment
(`ffi_type`): the only two fields the engine reads. -/
structure ffi_type where
  size : Nat
  alignment : Nat
deriving DecidableEq, Repr

/-- `struct call_context` (lines 119-122): whether errno is checked and
whether the runtime lock is released around the call. -/
structure call_context where
  check_errno : Bool
  runtime_lock : Bool
deriving DecidableEq, Repr

/-- The state of a callspec value (line 109). -/
inductive SpecState where
  | BUILDING
  | CALLSPEC
deriving DecidableEq, Repr

/-- `struct callspec` (lines 89-133).  The null-terminated `ffi_type **args`
array is modelled as a Lean list (`nelements` and `capacity` are kept as the
separate counters the C code maintains); the `ffi_cif *` member is an opaque
handle of the external call-dispatch library and carries no information the
claims depend on, so it is omitted. -/
structure callspec where
  bytes : Nat
  nelements : Nat
  capacity : Nat
  max_align : Nat
  state : SpecState
  args : List ffi_type
  roffset : Nat
  context : call_context
deriving DecidableEq, Repr

/-- `ctypes_allocate_callspec` (lines 198-211): a fresh spec is a copy of
`callspec_prototype = {0, 0, 0, 0, BUILDING, NULL, -1, {0, 0}, NULL}` with the
context overwritten; `(size_t)(-1)` is `2^64 - 1`. -/
def ctypes_allocate_callspec (check_errno runtime_lock : Bool) : callspec :=
  { bytes := 0
    nelements := 0
    capacity := 0
    max_align := 0
    state := SpecState.BUILDING
    args := []
    roffset := 2 ^ 64 - 1
    context := ⟨check_errno, runtime_lock⟩ }

/-- `increment_size` (line 219): the fixed chunk by which the capacity of the
args array grows. -/
def increment_size : Nat := 8

/-- `ctypes_add_argument` (lines 217-246).  `assert(callspec->state ==
BUILDING)` is modelled as returning `none`.  The returned offset is the C
`int` local `offset` (narrowed from the `size_t` result of `aligned_offset`),
and the new running size is `offset + argtype->size` computed back in
`size_t`.  Appending `argtype` plus the null terminator to the args array is
modelled as a list append; the capacity grows by `increment_size` whenever
`nelements + 2 >= capacity`. -/
def ctypes_add_argument (spec : callspec) (argtype : ffi_type) :
    Option (callspec × Int) :=
  match spec.state with
  | SpecState.CALLSPEC => none
  | SpecState.BUILDING =>
    let offset : Int := toCInt (aligned_offset spec.bytes argtype.alignment)
    some
      ({ spec with
          bytes := sizeOfInt offset + argtype.size
          args := spec.args ++ [argtype]
          nelements := spec.nelements + 1
          capacity :=
            if spec.nelements + 2 ≥ spec.capacity
            then spec.capacity + increment_size
            else spec.capacity
          max_align :=
            if argtype.alignment > spec.max_align
            then argtype.alignment
            else spec.max_align },
        offset)

/-- `ffi_status` values the stub distinguishes (lines 61-75). -/
inductive ffi_status where
  | FFI_OK
  | FFI_BAD_TYPEDEF
  | FFI_BAD_ABI
deriving DecidableEq, Repr

/-- The errors `ctypes_check_ffi_status` raises (lines 61-75). -/
inductive FfiError where
  | internal_bad_typedef
  | internal_bad_abi
deriving DecidableEq, Repr

/-- `ctypes_check_ffi_status` (lines 61-75): `FFI_OK` passes, the two failure
statuses raise `FFI_internal_error` with the corresponding message. -/
def ctypes_check_ffi_status : ffi_status → Except FfiError Unit
  | ffi_status.FFI_OK => Except.ok ()
  | ffi_status.FFI_BAD_TYPEDEF => Except.error FfiError.internal_bad_typedef
  | ffi_status.FFI_BAD_ABI => Except.error FfiError.internal_bad_abi

/-- `ctypes_prep_callspec` (lines 251-287).  `ptrAlign` and `ptrSize` are
`ffi_type_pointer.alignment` and `ffi_type_pointer.size` of the platform;
`status` is the verdict of the external `ffi_prep_cif`.  Note that the source
performs NO state check here (there is no `assert(callspec->state ==
BUILDING)` in this function): the layout fields are recomputed and the state
is set to `CALLSPEC` whatever the previous state was.  On a failing status
the C code raises out of the function after having mutated the layout fields
in place and before setting the state; no claim depends on that
mutated-but-unprepared value, so the model returns only the error. -/
def ctypes_prep_callspec (ptrAlign ptrSize : Nat) (status : ffi_status)
    (spec : callspec) (rffitype : ffi_type) : Except FfiError callspec :=
  let roffset := aligned_offset spec.bytes rffitype.alignment
  let bytes1 := roffset + rffitype.size
  let bytes2 := aligned_offset bytes1 ptrAlign + ptrSize
  match ctypes_check_ffi_status status with
  | Except.error e => Except.error e
  | Except.ok _ =>
    Except.ok
      { spec with
          roffset := roffset
          bytes := bytes2
          state := SpecState.CALLSPEC }

/-- `compute_arg_buffer_size` (lines 168-179): requires `state == CALLSPEC`
(assert modelled as `none`); returns the total buffer size together with the
`*arg_array_offset` out-parameter. -/
def compute_arg_buffer_size (ptrAlign ptrSize : Nat) (spec : callspec) :
    Option (Nat × Nat) :=
  match spec.state with
  | SpecState.BUILDING => none
  | SpecState.CALLSPEC =>
    let arg_array_offset := aligned_offset spec.bytes ptrAlign
    some (arg_array_offset + spec.nelements * ptrSize, arg_array_offset)

/-- The offsets assigned by the loop of `populate_arg_array` (lines 184-193)
starting from running offset `offset`: each argument is placed at
`aligned_offset(offset, align)` and the running offset then advances past its
size. -/
def arg_offsets_from (offset : Nat) : List ffi_type → List Nat
  | [] => []
  | t :: ts =>
    let off := aligned_offset offset t.alignment
    off :: arg_offsets_from (off + t.size) ts

/-- `populate_arg_array` (lines 184-193): the per-argument buffer offsets,
`arg_array[i] = (char *)callbuffer + offset_i`, starting from offset 0. -/
def populate_arg_array (args : List ffi_type) : List Nat :=
  arg_offsets_from 0 args

/-- The final running offset of the `aligned_offset` walk: the value of
`callspec->bytes` after appending every token of the list (in exact
arithmetic). -/
def layout_end (offset : Nat) : List ffi_type → Nat
  | [] => offset
  | t :: ts => layout_end (aligned_offset offset t.alignment + t.size) ts

/-- Iterated `ctypes_add_argument`, collecting the offsets returned to the
caller (in order).  Fails as soon as one append fails. -/
def runBuilder (spec : callspec) : List ffi_type → Option (callspec × List Int)
  | [] => some (spec, [])
  | t :: ts =>
    match ctypes_add_argument spec t with
    | none => none
    | some (spec', off) =>
      match runBuilder spec' ts with
      | none => none
      | some (spec'', offs) => some (spec'', off :: offs)

/-- The offsets handed back by successive `ctypes_add_argument` calls on a
fresh callspec. -/
def builder_offsets (toks : List ffi_type) : Option (List Int) :=
  (runBuilder (ctypes_allocate_callspec false false) toks).map Prod.snd

/-- The observable events of one `ctypes_call` invocation (lines 293-374), in
program order: lock release/reacquire, errno reset/capture, the `ffi_call`
dispatch, the `unix_error` raise, and the final `rvreader` application.
Function names are identified by numeric ids (no claim inspects the string
beyond identity). -/
inductive CallEvent where
  | release_runtime
  | acquire_runtime
  | reset_errno
  | ffi_dispatch
  | capture_errno
  | unix_error_ev (fnname : Nat) (code : Nat)
  | read_return
deriving DecidableEq, Repr

/-- The lock-transition part of `ctypes_call` and `callback_handler` traces. -/
inductive LockEv where
  | rel
  | acq
deriving DecidableEq, Repr

/-- The lock/errno/dispatch/raise portion of `ctypes_call` (lines 339-374),
as the event trace it produces together with the raised error, if any:
release the runtime lock iff `context.runtime_lock`; reset errno iff
`context.check_errno`; dispatch; capture errno iff checking; reacquire the
lock iff it was released; then either raise `unix_error(saved_errno, fnname)`
(when checking and the captured code is nonzero) or apply `rvreader` and
return its result.  `errnoAfter` is the errno value the dispatched function
leaves behind. -/
def ctypes_call_run (ctx : call_context) (fnname errnoAfter : Nat) :
    List CallEvent × Option (Nat × Nat) :=
  let pre :=
    (if ctx.runtime_lock then [CallEvent.release_runtime] else [])
      ++ (if ctx.check_errno then [CallEvent.reset_errno] else [])
      ++ [CallEvent.ffi_dispatch]
      ++ (if ctx.check_errno then [CallEvent.capture_errno] else [])
      ++ (if ctx.runtime_lock then [CallEvent.acquire_runtime] else [])
  if ctx.check_errno ∧ errnoAfter ≠ 0 then
    (pre ++ [CallEvent.unix_error_ev fnname errnoAfter],
      some (fnname, errnoAfter))
  else
    (pre ++ [CallEvent.read_return], none)

/-- Projection of a `ctypes_call` trace onto its lock transitions. -/
def call_lock_events : List CallEvent → List LockEv :=
  List.filterMap fun e =>
    match e with
    | CallEvent.release_runtime => some LockEv.rel
    | CallEvent.acquire_runtime => some LockEv.acq
    | _ => none

/-- Walk a list of lock transitions from a given lock state (`true` = the
current thread holds the runtime lock), refusing invalid transitions
(releasing a lock that is not held, re-acquiring a held one); returns the
final state.  A balanced, properly nested (LIFO) usage from state `s` is
exactly a walk that succeeds and ends back in `s`. -/
def lock_walk : Bool → List LockEv → Option Bool
  | held, [] => some held
  | held, LockEv.rel :: t => if held then lock_walk false t else none
  | held, LockEv.acq :: t => if held then none else lock_walk true t

/-- `int roffset = callspec->roffset` (line 300): the return-slot offset used
by `ctypes_call`, read through a C `int`. -/
def ctypes_call_roffset (spec : callspec) : Int :=
  toCInt spec.roffset

/-- Where a pointer-array slot of the call buffer points after
`ctypes_call`'s slot fix-up loop: either into the in-buffer argument storage
at a given offset (`buf`), or at entry `i` of the stack array `val_refs`
(`valref`), as in `arg_array[i] = &val_refs[i]` (line 335). -/
inductive SlotAddr where
  | buf (offset : Nat)
  | valref (i : Nat)
deriving DecidableEq, Repr

/-- The overwriting loop of `ctypes_call` (lines 323-336), starting at index
`k`: a slot whose argument tuple is present (`some`) is redirected to
`&val_refs[i]`; a slot whose entry is `none` (the OCaml side left `0` /
`Val_unit`) keeps its populated in-buffer address. -/
def override_slots (k : Nat) : List SlotAddr → List (Option (Nat × Nat)) →
    List SlotAddr
  | [], _ => []
  | ss, [] => ss
  | s :: ss, o :: os =>
    (match o with
      | some _ => SlotAddr.valref k
      | none => s) :: override_slots (k + 1) ss os

/-- The pointer-array slots of one `ctypes_call` invocation after
`populate_arg_array` (line 313) and the fix-up loop (lines 323-336): `args`
are the spec's argument types, `outs` is what the `argwriter` callback left
in `callback_val_arr` — per argument, optionally a base address of
externally-owned bytes plus a byte offset into them. -/
def ctypes_call_slots (args : List ffi_type)
    (outs : List (Option (Nat × Nat))) : List SlotAddr :=
  override_slots 0 ((populate_arg_array args).map SlotAddr.buf) outs

/-- The contents of the `val_refs` entries (line 333):
`val_refs[i] = String_val(arg_ptr) + Int_val(arg_offset)`, i.e. the
externally-owned byte address plus the offset, for the arguments the writer
handed back. -/
def ctypes_call_val_refs (outs : List (Option (Nat × Nat))) :
    List (Option Nat) :=
  outs.map (Option.map fun p => p.1 + p.2)

/-- The argument value applied to one link of the callback chain: `Val_unit`
for the zero-arity case (line 410), or a wrapped native argument address
(line 420). -/
inductive OArg where
  | unit
  | addr (a : Nat)
deriving DecidableEq, Repr

/-- The OCaml `boxedfn` chain driven by `callback_handler` (tags `Done`/`Fn`,
line 384): a curried chain of single-argument steps ended by the terminal
result step.  The payload of `Done` (the managed writer of the result) is
applied once at the end and is modelled by the `done_apply` event alone. -/
inductive Boxedfn where
  | Fn (f : OArg → Boxedfn)
  | Done

/-- The observable events of one `callback_handler` re-entry
(lines 386-438). -/
inductive CbEvent where
  | acquire_lock
  | release_lock
  | step_apply (a : OArg)
  | done_apply (ret : Nat)
deriving DecidableEq, Repr

/-- How a `callback_handler` re-entry ends abnormally: the
`CallToExpiredClosure` raise of `retrieve_closure` (lines 41-43), or a failed
`assert(Tag_val(boxedfn) == ...)` (a chain whose length does not match the
foreign call's arity aborts the process). -/
inductive CbErr where
  | expiredClosure
  | assert_failed
deriving DecidableEq, Repr

/-- The argument loop of `callback_handler` (lines 405-425): apply the chain
to each wrapped argument in order, recording one `step_apply` per
application; applying a chain that is already `Done` is the failed
`assert(Tag_val(boxedfn) == Fn)`. -/
def drive_steps : List OArg → Boxedfn → List CbEvent × Option Boxedfn
  | [], b => ([], some b)
  | a :: as, Boxedfn.Fn f =>
    let r := drive_steps as (f a)
    (CbEvent.step_apply a :: r.1, r.2)
  | _ :: _, Boxedfn.Done => ([], none)

/-- The chain arguments of one `callback_handler` re-entry: the `switch
(arity)` of lines 405-425 applies the chain once to `Val_unit` when the
foreign call has no arguments (line 410), and once per wrapped native
argument address otherwise (lines 415-422). -/
def cb_oargs (args : List Nat) : List OArg :=
  match args with
  | [] => [OArg.unit]
  | as => as.map OArg.addr

/-- `callback_handler` (lines 386-438): acquire the runtime lock iff the
closure's context says so; resolve `fnkey` through the registered resolver
(`retrieve_closure`, lines 35-46 — a failing resolution raises
`CallToExpiredClosure`); drive one step per argument (`Val_unit` standing in
for the argument when the arity is zero, line 410); assert the chain is now
`Done` and apply it to the wrapped return-slot address; release the lock iff
it was acquired.  On the raising paths the function is abandoned where the C
code raises or aborts: in particular no `release_lock` event is emitted
there. -/
def callback_handler_run (lock : Bool) (resolver : Nat → Option Boxedfn)
    (fnkey : Nat) (args : List Nat) (ret : Nat) :
    List CbEvent × Option CbErr :=
  let pre := if lock then [CbEvent.acquire_lock] else []
  match resolver fnkey with
  | none => (pre, some CbErr.expiredClosure)
  | some boxedfn =>
    match drive_steps (cb_oargs args) boxedfn with
    | (tr, some Boxedfn.Done) =>
      (pre ++ tr ++ [CbEvent.done_apply ret]
        ++ (if lock then [CbEvent.release_lock] else []), none)
    | (tr, _) => (pre ++ tr, some CbErr.assert_failed)

/-- Projection of a `callback_handler` trace onto its lock transitions. -/
def cb_lock_events : List CbEvent → List LockEv :=
  List.filterMap fun e =>
    match e with
    | CbEvent.acquire_lock => some LockEv.acq
    | CbEvent.release_lock => some LockEv.rel
    | _ => none

/-- Projection of a `callback_handler` trace onto the chain applications
(the `step_apply` and `done_apply` events). -/
def cb_bridge_events : List CbEvent → List CbEvent :=
  List.filter fun e =>
    match e with
    | CbEvent.step_apply _ => true
    | CbEvent.done_apply _ => true
    | _ => false

/-- `ChainFits b n` says the boxedfn chain `b` consists of exactly `n` nested
`Fn` steps (whatever arguments they receive) ended by the terminal `Done`. -/
inductive ChainFits : Boxedfn → Nat → Prop
  | done : ChainFits Boxedfn.Done 0
  | fn (f : OArg → Boxedfn) (n : Nat) :
      (∀ a, ChainFits (f a) n) → ChainFits (Boxedfn.Fn f) (n + 1)

/-- The argument list of the round-trip example of the specification:
sizes `{4, 8, 1}` with alignments `{4, 8, 1}`. -/
def example_toks : List ffi_type := [⟨4, 4⟩, ⟨8, 8⟩, ⟨1, 1⟩]

/-- The round-trip example spec: the three example arguments appended to a
fresh callspec and prepared with a return type of size 4 / alignment 4 on a
platform with 8-byte, 8-aligned pointers. -/
def example_prepped : Option callspec :=
  ((runBuilder (ctypes_allocate_callspec false false) example_toks).map
      Prod.fst).bind
    fun s =>
      (ctypes_prep_callspec 8 8 ffi_status.FFI_OK s ⟨4, 4⟩).toOption

/-- Total call-buffer size (and arg-array offset) of the round-trip
example. -/
def example_buffer_size : Option (Nat × Nat) :=
  example_prepped.bind (compute_arg_buffer_size 8 8)

/-- A concrete already-prepared callspec (the immediate result of preparing a
fresh spec), used to probe the state guards. -/
def spec_done : callspec :=
  { bytes := 16
    nelements := 0
    capacity := 0
    max_align := 0
    state := SpecState.CALLSPEC
    args := []
    roffset := 0
    context := ⟨false, false⟩ }

/-- A Building-state callspec whose running size has grown to `2^31` bytes
(as it does after appending a single token of size `2^31`), at which point
the C `int` narrowing of the next returned offset becomes visible. -/
def spec_big : callspec :=
  { bytes := 2 ^ 31
    nelements := 1
    capacity := 8
    max_align := 1
    state := SpecState.BUILDING
    args := [⟨2 ^ 31, 1⟩]
    roffset := 2 ^ 64 - 1
    context := ⟨false, false⟩ }

/-- A resolver with every key revoked: resolution always fails. -/
def no_resolver : Nat → Option Boxedfn := fun _ => none

/-- A boxedfn chain for a zero-argument function: one step (consuming the
unit value) and then the terminal result step. -/
def unit_chain : Boxedfn := Boxedfn.Fn fun _ => Boxedfn.Done

/-- A boxedfn chain for a two-argument function. -/
def two_chain : Boxedfn := Boxedfn.Fn fun _ => Boxedfn.Fn fun _ => Boxedfn.Done

/-- A resolver holding `two_chain` under every key. -/
def two_resolver : Nat → Option Boxedfn := fun _ => some two_chain

/-- A resolver holding `unit_chain` under every key. -/
def unit_resolver : Nat → Option Boxedfn := fun _ => some unit_chain

/-- The capacity of the args array after appending `n` one-byte arguments to
a fresh callspec. -/
def cap_after (n : Nat) : Option Nat :=
  (runBuilder (ctypes_allocate_callspec false false)
      (List.replicate n ⟨1, 1⟩)).map
    fun p => p.1.capacity

/-- In the signed 32-bit range the `int` narrowing is the identity. -/
theorem toCInt_small {n : Nat} (h : n < 2 ^ 31) : toCInt n = (n : Int) := by
  unfold toCInt
  have h32 : n % 2 ^ 32 = n := Nat.mod_eq_of_lt (lt_trans h (by norm_num))
  rw [h32, if_pos h]

/-- In the signed 32-bit range, narrowing to `int` and widening back to
`size_t` is the identity. -/
theorem sizeOfInt_toCInt_small {n : Nat} (h : n < 2 ^ 31) :
    sizeOfInt (toCInt n) = n := by
  rw [toCInt_small h]
  unfold sizeOfInt
  have hlt : (n : Int) < 2 ^ 64 := by exact_mod_cast lt_trans h (by norm_num)
  rw [Int.emod_eq_of_lt (by positivity) hlt]
  simp

/-- Rounding up to a positive alignment never moves an offset backwards. -/
theorem aligned_offset_ge (o a : Nat) (h : 1 ≤ a) :
    o ≤ aligned_offset o a := by
  unfold aligned_offset
  have h1 : o % a < a := Nat.mod_lt o h
  have h2 : o % a ≤ o := Nat.mod_le o a
  split <;> omega

/-- The `aligned_offset` walk is monotone in its running offset: the final
running size is at least the starting one (positive alignments). -/
theorem layout_end_ge :
    ∀ (toks : List ffi_type) (o : Nat), (∀ t ∈ toks, 1 ≤ t.alignment) →
      o ≤ layout_end o toks := by
  intro toks
  induction toks with
  | nil => intro o _; exact Nat.le_refl o
  | cons t ts ih =>
    intro o h
    have h1 : 1 ≤ t.alignment := h t (by simp)
    have h2 := ih (aligned_offset o t.alignment + t.size)
      (fun x hx => h x (by simp [hx]))
    calc o ≤ aligned_offset o t.alignment := aligned_offset_ge o _ h1
      _ ≤ aligned_offset o t.alignment + t.size := Nat.le_add_right _ _
      _ ≤ layout_end o (t :: ts) := h2

/-- The walk assigns one offset per argument. -/
theorem arg_offsets_from_length :
    ∀ (toks : List ffi_type) (o : Nat),
      (arg_offsets_from o toks).length = toks.length := by
  intro toks
  induction toks with
  | nil => intro o; rfl
  | cons t ts ih => intro o; simp [arg_offsets_from, ih]

/-- Splitting the offset walk at a list append: the second part starts from
the final running size of the first. -/
theorem arg_offsets_from_append :
    ∀ (l₁ l₂ : List ffi_type) (o : Nat),
      arg_offsets_from o (l₁ ++ l₂)
        = arg_offsets_from o l₁ ++ arg_offsets_from (layout_end o l₁) l₂ := by
  intro l₁
  induction l₁ with
  | nil => intro l₂ o; simp [arg_offsets_from, layout_end]
  | cons t ts ih => intro l₂ o; simp [arg_offsets_from, layout_end, ih]

/-- Unfolding of `ctypes_add_argument` on a Building-state spec. -/
theorem ctypes_add_argument_building (spec : callspec) (t : ffi_type)
    (hs : spec.state = SpecState.BUILDING) :
    ctypes_add_argument spec t = some
      ({ spec with
          bytes :=
            sizeOfInt (toCInt (aligned_offset spec.bytes t.alignment)) + t.size
          args := spec.args ++ [t]
          nelements := spec.nelements + 1
          capacity :=
            if spec.nelements + 2 ≥ spec.capacity
            then spec.capacity + increment_size
            else spec.capacity
          max_align :=
            if t.alignment > spec.max_align
            then t.alignment
            else spec.max_align },
        toCInt (aligned_offset spec.bytes t.alignment)) := by
  obtain ⟨b, ne, cap, ma, st, as, ro, cx⟩ := spec
  cases hs
  rfl

/-- As long as every offset of the exact walk stays below `2^31`, the
iterated builder succeeds and returns exactly the offsets of the walk, with
the running size tracking `layout_end`. -/
theorem run_builder_layout :
    ∀ (toks : List ffi_type) (spec : callspec),
      spec.state = SpecState.BUILDING →
      (∀ t ∈ toks, 1 ≤ t.alignment) →
      layout_end spec.bytes toks < 2 ^ 31 →
      ∃ spec', runBuilder spec toks
          = some (spec', (arg_offsets_from spec.bytes toks).map Int.ofNat)
        ∧ spec'.state = SpecState.BUILDING
        ∧ spec'.bytes = layout_end spec.bytes toks := by
  intro toks
  induction toks with
  | nil =>
    intro spec hs _ _
    exact ⟨spec, by simp [runBuilder, arg_offsets_from], hs, rfl⟩
  | cons t ts ih =>
    intro spec hs hal hfit
    have ha : 1 ≤ t.alignment := hal t (by simp)
    have hoffle : aligned_offset spec.bytes t.alignment + t.size
        ≤ layout_end spec.bytes (t :: ts) :=
      layout_end_ge ts _ (fun x hx => hal x (by simp [hx]))
    have hofflt : aligned_offset spec.bytes t.alignment < 2 ^ 31 := by omega
    have hadd := ctypes_add_argument_building spec t hs
    rw [sizeOfInt_toCInt_small hofflt, toCInt_small hofflt] at hadd
    obtain ⟨spec'', hrun, hs'', hb''⟩ :=
      ih { spec with
            bytes := aligned_offset spec.bytes t.alignment + t.size
            args := spec.args ++ [t]
            nelements := spec.nelements + 1
            capacity :=
              if spec.nelements + 2 ≥ spec.capacity
              then spec.capacity + increment_size
              else spec.capacity
            max_align :=
              if t.alignment > spec.max_align
              then t.alignment
              else spec.max_align }
        hs (fun x hx => hal x (by simp [hx])) hfit
    refine ⟨spec'', ?_, hs'', ?_⟩
    · simp only [runBuilder]
      rw [hadd]
      dsimp only
      rw [hrun]
      simp [arg_offsets_from]
    · exact hb''

/-- Driving a chain of exactly matching arity performs one step application
per argument, in order, and ends on the terminal `Done`. -/
theorem drive_steps_of_fits :
    ∀ (oargs : List OArg) (b : Boxedfn), ChainFits b oargs.length →
      drive_steps oargs b = (oargs.map CbEvent.step_apply, some Boxedfn.Done) := by
  intro oargs
  induction oargs with
  | nil =>
    intro b h
    cases h
    rfl
  | cons a as ih =>
    intro b h
    rw [List.length_cons] at h
    cases h with
    | fn f n hf =>
      simp [drive_steps, ih (f a) (hf a)]

/-- The argument loop emits no lock transitions. -/
theorem drive_steps_lock_events :
    ∀ (oargs : List OArg) (b : Boxedfn),
      cb_lock_events (drive_steps oargs b).1 = [] := by
  intro oargs
  induction oargs with
  | nil => intro b; rfl
  | cons a as ih =>
    intro b
    cases b with
    | Done => rfl
    | Fn f => simpa [drive_steps, cb_lock_events] using ih (f a)

/-- Step applications survive the bridge-event projection unchanged. -/
theorem cb_bridge_events_steps :
    ∀ l : List OArg,
      cb_bridge_events (l.map CbEvent.step_apply) = l.map CbEvent.step_apply := by
  intro l
  induction l with
  | nil => rfl
  | cons a as ih => simp [cb_bridge_events] at ih ⊢

/-- Entry `i` of the slot array after the fix-up loop started at index `k`:
redirected to `val_refs` exactly when the writer handed something back for
that argument. -/
theorem override_slots_getD :
    ∀ (ss : List SlotAddr) (outs : List (Option (Nat × Nat))) (k i : Nat),
      i < ss.length → i < outs.length →
      (override_slots k ss outs).getD i (SlotAddr.buf 0)
        = match outs.getD i none with
          | some _ => SlotAddr.valref (k + i)
          | none => ss.getD i (SlotAddr.buf 0) := by
  intro ss
  induction ss with
  | nil =>
    intro outs k i h1 _
    simp at h1
  | cons s ss ih =>
    intro outs k i h1 h2
    cases outs with
    | nil => simp at h2
    | cons o os =>
      cases i with
      | zero => cases o <;> simp [override_slots]
      | succ i =>
        have h1' : i < ss.length := by simpa using h1
        have h2' : i < os.length := by simpa using h2
        have hrec := ih os (k + 1) i h1' h2'
        have hk : k + 1 + i = k + (i + 1) := by omega
        rw [hk] at hrec
        simpa [override_slots] using hrec

/-- `getD` through the `SlotAddr.buf` tagging of the populated offsets. -/
theorem getD_map_buf :
    ∀ (l : List Nat) (i : Nat), i < l.length →
      (l.map SlotAddr.buf).getD i (SlotAddr.buf 0)
        = SlotAddr.buf (l.getD i 0) := by
  intro l
  induction l with
  | nil => intro i h; simp at h
  | cons x xs ih =>
    intro i h
    cases i with
    | zero => rfl
    | succ i => exact ih i (by simpa using h)

/-- The event trace of `ctypes_call` in closed form: the lock/errno bracket
around the dispatch, ended by either the `unix_error` raise or the
`rvreader` application. -/
theorem ctypes_call_run_trace (ctx : call_context) (fn e : Nat) :
    (ctypes_call_run ctx fn e).1
      = (if ctx.runtime_lock then [CallEvent.release_runtime] else [])
        ++ (if ctx.check_errno then [CallEvent.reset_errno] else [])
        ++ [CallEvent.ffi_dispatch]
        ++ (if ctx.check_errno then [CallEvent.capture_errno] else [])
        ++ (if ctx.runtime_lock then [CallEvent.acquire_runtime] else [])
        ++ (if ctx.check_errno ∧ e ≠ 0
            then [CallEvent.unix_error_ev fn e]
            else [CallEvent.read_return]) := by
  obtain ⟨ce, rl⟩ := ctx
  cases ce <;> cases rl <;> by_cases he : e = 0 <;> simp [ctypes_call_run, he]

/-- The outcome of `ctypes_call` in closed form: raises exactly when errno
checking is on and the captured code is nonzero. -/
theorem ctypes_call_run_result (ctx : call_context) (fn e : Nat) :
    (ctypes_call_run ctx fn e).2
      = if ctx.check_errno ∧ e ≠ 0 then some (fn, e) else none := by
  obtain ⟨ce, rl⟩ := ctx
  cases ce <;> cases rl <;> by_cases he : e = 0 <;> simp [ctypes_call_run, he]

/-- The lock projection distributes over trace concatenation. -/
theorem cb_lock_events_append (l₁ l₂ : List CbEvent) :
    cb_lock_events (l₁ ++ l₂) = cb_lock_events l₁ ++ cb_lock_events l₂ := by
  simp [cb_lock_events]

/-- The bridge projection distributes over trace concatenation. -/
theorem cb_bridge_events_append (l₁ l₂ : List CbEvent) :
    cb_bridge_events (l₁ ++ l₂)
      = cb_bridge_events l₁ ++ cb_bridge_events l₂ := by
  simp [cb_bridge_events]

/-- C1 counterexample: preparing a specification that is already Prepared is
NOT rejected — preparing a freshly prepared one-argument spec a second time
succeeds (the source has no state guard in `ctypes_prep_callspec`), refuting
the claim that the prepare transition is guarded by state Building. -/
theorem c1_counterexample :
    ((ctypes_prep_callspec 8 8 ffi_status.FFI_OK
          (ctypes_allocate_callspec false false) ⟨4, 4⟩).toOption.bind
        fun s =>
          (ctypes_prep_callspec 8 8 ffi_status.FFI_OK s ⟨4, 4⟩).toOption).isSome
      = true := by
  decide

/-- C1 (amended): appending an argument is guarded by state Building —
`ctypes_add_argument` fails on a Prepared spec and succeeds on a Building
one — but `ctypes_prep_callspec` has no state guard: with a passing library
status it succeeds even on an already-Prepared specification (so the prepare
transition is not forced to happen at most once). -/
theorem c1_state_machine :
    (∀ (spec : callspec) (t : ffi_type),
        spec.state = SpecState.CALLSPEC → ctypes_add_argument spec t = none)
    ∧ (∀ (spec : callspec) (t : ffi_type),
        spec.state = SpecState.BUILDING →
        (ctypes_add_argument spec t).isSome = true)
    ∧ (∀ (ptrAlign ptrSize : Nat) (spec : callspec) (rt : ffi_type),
        spec.state = SpecState.CALLSPEC →
        ∃ spec', ctypes_prep_callspec ptrAlign ptrSize ffi_status.FFI_OK spec rt
            = Except.ok spec'
          ∧ spec'.state = SpecState.CALLSPEC) := by
  refine ⟨?_, ?_, ?_⟩
  · intro spec t hs
    obtain ⟨b, ne, cap, ma, st, as0, ro, cx⟩ := spec
    cases hs
    rfl
  · intro spec t hs
    obtain ⟨b, ne, cap, ma, st, as0, ro, cx⟩ := spec
    cases hs
    rfl
  · intro pa ps spec rt _
    exact ⟨_, rfl, rfl⟩

/-- C1 witness: the guards evaluated at a concrete Prepared spec and a
concrete fresh spec. -/
theorem c1_witness :
    ctypes_add_argument spec_done ⟨4, 4⟩ = none
    ∧ (ctypes_add_argument (ctypes_allocate_callspec false false) ⟨4, 4⟩).isSome
        = true
    ∧ ∃ s', ctypes_prep_callspec 8 8 ffi_status.FFI_OK spec_done ⟨4, 4⟩
          = Except.ok s'
        ∧ s'.state = SpecState.CALLSPEC :=
  ⟨c1_state_machine.1 spec_done ⟨4, 4⟩ rfl,
    c1_state_machine.2.1 (ctypes_allocate_callspec false false) ⟨4, 4⟩ rfl,
    c1_state_machine.2.2 8 8 spec_done ⟨4, 4⟩ rfl⟩

/-- C5 counterexample: (a) the args-array capacity grows by fixed chunks of
8, not geometrically — after 1, 7 and 15 appends the capacities are 8, 16
and 24, and `8, 16, 24` is not a geometric progression (`8·24 ≠ 16²`);
(b) the returned offset is NOT `alignUp(spec.bytes, alignment)` once that
value leaves the signed 32-bit range: appending an 8-byte/8-aligned token
after a `2^31`-byte token returns `-2^31` where `alignUp` yields `2^31`. -/
theorem c5_counterexample :
    cap_after 1 = some 8 ∧ cap_after 7 = some 16 ∧ cap_after 15 = some 24
    ∧ ¬(8 * 24 = 16 * 16)
    ∧ builder_offsets [⟨2 ^ 31, 1⟩, ⟨8, 8⟩] = some [0, -(2 ^ 31 : Int)]
    ∧ aligned_offset (2 ^ 31) 8 = 2 ^ 31
    ∧ -(2 ^ 31 : Int) ≠ ((2 ^ 31 : Nat) : Int) := by
  refine ⟨by decide, by decide, by decide, by decide, by decide, by decide,
    by decide⟩

/-- C5 (amended): on a Building-state spec, whenever the aligned offset fits
the signed 32-bit range, `ctypes_add_argument` returns
`alignUp(spec.bytes, alignment)`, sets the running size to `offset + size`,
appends the token at the end of the type list, bumps `nelements`, updates
`max_align` to the maximum, and grows the capacity by a fixed chunk of 8
exactly when `nelements + 2 ≥ capacity` (so the capacity never shrinks). -/
theorem c5_append_argument :
    ∀ (spec : callspec) (t : ffi_type),
      spec.state = SpecState.BUILDING →
      aligned_offset spec.bytes t.alignment < 2 ^ 31 →
      ∃ spec', ctypes_add_argument spec t
          = some (spec', ((aligned_offset spec.bytes t.alignment : Nat) : Int))
        ∧ spec'.bytes = aligned_offset spec.bytes t.alignment + t.size
        ∧ spec'.args = spec.args ++ [t]
        ∧ spec'.nelements = spec.nelements + 1
        ∧ spec'.max_align = max spec.max_align t.alignment
        ∧ spec'.capacity
            = (if spec.nelements + 2 ≥ spec.capacity
               then spec.capacity + increment_size
               else spec.capacity)
        ∧ spec.capacity ≤ spec'.capacity := by
  intro spec t hs hlt
  have hadd := ctypes_add_argument_building spec t hs
  rw [sizeOfInt_toCInt_small hlt, toCInt_small hlt] at hadd
  refine ⟨_, hadd, rfl, rfl, rfl, ?_, rfl, ?_⟩
  · dsimp only
    split <;> omega
  · dsimp only
    split <;> simp [increment_size]

/-- C5 witness: the append postconditions evaluated at a fresh spec and the
4-byte/4-aligned token. -/
theorem c5_witness :
    ∃ spec', ctypes_add_argument (ctypes_allocate_callspec false false) ⟨4, 4⟩
        = some (spec',
            ((aligned_offset (ctypes_allocate_callspec false false).bytes 4 :
                Nat) : Int))
      ∧ spec'.bytes
          = aligned_offset (ctypes_allocate_callspec false false).bytes 4 + 4
      ∧ spec'.args = (ctypes_allocate_callspec false false).args ++ [⟨4, 4⟩]
      ∧ spec'.nelements = (ctypes_allocate_callspec false false).nelements + 1
      ∧ spec'.max_align
          = max (ctypes_allocate_callspec false false).max_align 4
      ∧ spec'.capacity
          = (if (ctypes_allocate_callspec false false).nelements + 2
                ≥ (ctypes_allocate_callspec false false).capacity
             then (ctypes_allocate_callspec false false).capacity
               + increment_size
             else (ctypes_allocate_callspec false false).capacity)
      ∧ (ctypes_allocate_callspec false false).capacity ≤ spec'.capacity :=
  c5_append_argument (ctypes_allocate_callspec false false) ⟨4, 4⟩ rfl
    (by decide)

/-- C10: the offset handed back by `ctypes_add_argument` is always the
32-bit narrowing of the exact aligned offset and no error is ever reported
for out-of-range values; the narrowing is the identity below `2^31`; at a
running size of `2^31` the returned offset is `-2^31` (while the running
size is updated through the `size_t` reconversion to `2^64 - 2^31 + size`),
diverging from the exact `alignUp` value `2^31`; and `ctypes_call` reads the
return-slot offset through the same `int` narrowing (a fresh spec's
`(size_t)(-1)` sentinel reads back as `-1`). -/
theorem c10_offset_narrowing :
    (∀ (spec : callspec) (t : ffi_type), spec.state = SpecState.BUILDING →
        ∃ spec', ctypes_add_argument spec t
            = some (spec', toCInt (aligned_offset spec.bytes t.alignment))
          ∧ spec'.bytes
              = sizeOfInt (toCInt (aligned_offset spec.bytes t.alignment))
                + t.size)
    ∧ (∀ n : Nat, n < 2 ^ 31 → toCInt n = (n : Int))
    ∧ (ctypes_add_argument spec_big ⟨8, 8⟩).map (fun p => (p.2, p.1.bytes))
        = some (-(2 ^ 31 : Int), 2 ^ 64 - 2 ^ 31 + 8)
    ∧ -(2 ^ 31 : Int) ≠ ((aligned_offset spec_big.bytes 8 : Nat) : Int)
    ∧ ctypes_call_roffset (ctypes_allocate_callspec false false) = -1 := by
  refine ⟨?_, fun n h => toCInt_small h, by decide, by decide, by decide⟩
  intro spec t hs
  exact ⟨_, ctypes_add_argument_building spec t hs, rfl⟩

/-- C10 witness: the narrowing law evaluated at a fresh spec with a
2-byte/2-aligned token, and at the in-range value 5. -/
theorem c10_witness :
    (∃ spec', ctypes_add_argument (ctypes_allocate_callspec true true) ⟨2, 2⟩
        = some (spec',
            toCInt (aligned_offset (ctypes_allocate_callspec true true).bytes 2))
      ∧ spec'.bytes
          = sizeOfInt
              (toCInt (aligned_offset (ctypes_allocate_callspec true true).bytes
                2)) + 2)
    ∧ toCInt 5 = (5 : Int) :=
  ⟨c10_offset_narrowing.1 (ctypes_allocate_callspec true true) ⟨2, 2⟩ rfl,
    c10_offset_narrowing.2.1 5 (by decide)⟩

/-- C4 counterexample: for the list `[(2^31, 1), (4, 4)]` the Builder's
returned offsets are `[0, -2^31]` (narrowed through the C `int`) while the
buffer-population walk of the Invocation Engine computes `[0, 2^31]` — the
two layouts are not identical for every list of (size, alignment) pairs. -/
theorem c4_counterexample :
    builder_offsets [⟨2 ^ 31, 1⟩, ⟨4, 4⟩] = some [0, -(2 ^ 31 : Int)]
    ∧ (populate_arg_array [⟨2 ^ 31, 1⟩, ⟨4, 4⟩]).map Int.ofNat
        = [0, (2 ^ 31 : Int)]
    ∧ some [0, -(2 ^ 31 : Int)] ≠ some [(0 : Int), 2 ^ 31] := by
  refine ⟨by decide, by decide, by decide⟩

/-- C4 (amended): for positive alignments, whenever the exact walk stays in
the signed 32-bit range the offsets returned by successive `appendArgument`
calls coincide exactly with the offsets computed by `populate_arg_array`;
and the population walk is a deterministic function of the preceding
(size, alignment) prefix alone: the first `n` offsets of an extended list
are those of its length-`n` prefix. -/
theorem c4_offsets_agree :
    (∀ toks : List ffi_type,
        (∀ t ∈ toks, 1 ≤ t.alignment) →
        layout_end 0 toks < 2 ^ 31 →
        builder_offsets toks = some ((populate_arg_array toks).map Int.ofNat))
    ∧ (∀ l₁ l₂ : List ffi_type,
        (populate_arg_array (l₁ ++ l₂)).take l₁.length
          = populate_arg_array l₁) := by
  constructor
  · intro toks hal hfit
    obtain ⟨spec', hrun, _, _⟩ :=
      run_builder_layout toks (ctypes_allocate_callspec false false) rfl hal
        hfit
    unfold builder_offsets
    rw [hrun]
    rfl
  · intro l₁ l₂
    rw [populate_arg_array, populate_arg_array, arg_offsets_from_append]
    rw [← arg_offsets_from_length l₁ 0, List.take_left]

/-- C4 witness: the agreement evaluated at the example token list. -/
theorem c4_witness :
    builder_offsets example_toks
      = some ((populate_arg_array example_toks).map Int.ofNat) :=
  c4_offsets_agree.1 example_toks (by decide) (by decide)

set_option maxRecDepth 8192 in
/-- C6: `ctypes_prep_callspec` (on a passing status) sets the return offset
to `alignUp(spec.bytes, returnAlignment)`, then the running size to that
offset plus the return size, padded up to pointer alignment plus one
pointer-sized slot; consequently the round-trip example (argument sizes
{4, 8, 1}, alignments {4, 8, 1}, return 4/4, 8-byte pointers) yields a
total call-buffer size of the aligned argument segments (17 bytes) plus the
aligned return slot plus the pointer-sized pad, rounded to pointer
alignment, plus one pointer slot per argument: 56 bytes with the pointer
array at offset 32. -/
theorem c6_prep_layout :
    (∀ (ptrAlign ptrSize : Nat) (status : ffi_status) (spec spec' : callspec)
        (rt : ffi_type),
        ctypes_prep_callspec ptrAlign ptrSize status spec rt
          = Except.ok spec' →
        spec'.roffset = aligned_offset spec.bytes rt.alignment
        ∧ spec'.bytes
            = aligned_offset (aligned_offset spec.bytes rt.alignment + rt.size)
                ptrAlign + ptrSize
        ∧ spec'.state = SpecState.CALLSPEC
        ∧ spec'.args = spec.args
        ∧ spec'.nelements = spec.nelements)
    ∧ example_buffer_size
        = some (aligned_offset
              (aligned_offset (aligned_offset (layout_end 0 example_toks) 4 + 4)
                8 + 8) 8 + 3 * 8,
            aligned_offset
              (aligned_offset (aligned_offset (layout_end 0 example_toks) 4 + 4)
                8 + 8) 8)
    ∧ example_buffer_size = some (56, 32) := by
  refine ⟨?_, by decide, by decide⟩
  intro pa ps st spec spec' rt h
  cases st with
  | FFI_OK =>
    simp only [ctypes_prep_callspec, ctypes_check_ffi_status,
      Except.ok.injEq] at h
    subst h
    exact ⟨rfl, rfl, rfl, rfl, rfl⟩
  | FFI_BAD_TYPEDEF =>
    simp [ctypes_prep_callspec, ctypes_check_ffi_status] at h
  | FFI_BAD_ABI =>
    simp [ctypes_prep_callspec, ctypes_check_ffi_status] at h

/-- C6 witness: the prepare postconditions evaluated at a fresh spec with a
4-byte/4-aligned return type and 8-byte pointers. -/
theorem c6_witness :
    ∃ r, ctypes_prep_callspec 8 8 ffi_status.FFI_OK
          (ctypes_allocate_callspec false false) ⟨4, 4⟩ = Except.ok r
      ∧ r.roffset
          = aligned_offset (ctypes_allocate_callspec false false).bytes 4
      ∧ r.bytes
          = aligned_offset
              (aligned_offset (ctypes_allocate_callspec false false).bytes 4
                + 4) 8 + 8
      ∧ r.state = SpecState.CALLSPEC
      ∧ r.args = (ctypes_allocate_callspec false false).args
      ∧ r.nelements = (ctypes_allocate_callspec false false).nelements := by
  refine ⟨_, rfl, ?_⟩
  exact c6_prep_layout.1 8 8 ffi_status.FFI_OK
    (ctypes_allocate_callspec false false) _ ⟨4, 4⟩ rfl

/-- C3: with errno checking on, the trace always contains the contiguous
reset–dispatch–capture triple (reset immediately before dispatch, capture
immediately after); a nonzero captured code makes the invocation fail with
the system error tagged with the function name and the code, and — whenever
the lock was released — the raise is the event strictly after the lock
reacquisition (the trace ends `... acquire, unix_error`); a zero captured
code returns normally.  With errno checking off the invocation never raises
and ends by applying the return reader, whatever the error code. -/
theorem c3_errno_check :
    ∀ (ctx : call_context) (fn e : Nat),
      (ctx.check_errno = true →
        (∃ pre post, (ctypes_call_run ctx fn e).1
            = pre ++ [CallEvent.reset_errno, CallEvent.ffi_dispatch,
                CallEvent.capture_errno] ++ post)
        ∧ (e ≠ 0 →
            (ctypes_call_run ctx fn e).2 = some (fn, e)
            ∧ (ctx.runtime_lock = true →
                ∃ pre, (ctypes_call_run ctx fn e).1
                  = pre ++ [CallEvent.acquire_runtime,
                      CallEvent.unix_error_ev fn e]))
        ∧ (e = 0 →
            (ctypes_call_run ctx fn e).2 = none
            ∧ ∃ pre, (ctypes_call_run ctx fn e).1
                = pre ++ [CallEvent.read_return]))
      ∧ (ctx.check_errno = false →
          (ctypes_call_run ctx fn e).2 = none
          ∧ ∃ pre, (ctypes_call_run ctx fn e).1
              = pre ++ [CallEvent.read_return]) := by
  intro ctx fn e
  constructor
  · intro hce
    refine ⟨?_, ?_, ?_⟩
    · rw [ctypes_call_run_trace]
      refine ⟨(if ctx.runtime_lock then [CallEvent.release_runtime] else []),
        (if ctx.runtime_lock then [CallEvent.acquire_runtime] else [])
          ++ (if ctx.check_errno ∧ e ≠ 0 then [CallEvent.unix_error_ev fn e]
              else [CallEvent.read_return]), ?_⟩
      simp [hce]
    · intro hne
      constructor
      · rw [ctypes_call_run_result]
        simp [hce, hne]
      · intro hrl
        rw [ctypes_call_run_trace]
        refine ⟨(if ctx.runtime_lock then [CallEvent.release_runtime] else [])
            ++ [CallEvent.reset_errno, CallEvent.ffi_dispatch,
              CallEvent.capture_errno], ?_⟩
        simp [hce, hrl, hne]
    · intro h0
      constructor
      · rw [ctypes_call_run_result]
        simp [h0]
      · rw [ctypes_call_run_trace]
        refine ⟨(if ctx.runtime_lock then [CallEvent.release_runtime] else [])
            ++ [CallEvent.reset_errno, CallEvent.ffi_dispatch,
              CallEvent.capture_errno]
            ++ (if ctx.runtime_lock then [CallEvent.acquire_runtime] else []),
          ?_⟩
        simp [hce, h0]
  · intro hce
    constructor
    · rw [ctypes_call_run_result]
      simp [hce]
    · rw [ctypes_call_run_trace]
      refine ⟨(if ctx.runtime_lock then [CallEvent.release_runtime] else [])
          ++ [CallEvent.ffi_dispatch]
          ++ (if ctx.runtime_lock then [CallEvent.acquire_runtime] else []),
        ?_⟩
      simp [hce]

/-- C3 witness: the errno discipline evaluated with both flags set, function
name 7 and captured code 5, and again with checking off. -/
theorem c3_witness :
    ((ctypes_call_run ⟨true, true⟩ 7 5).2 = some (7, 5)
      ∧ ∃ pre, (ctypes_call_run ⟨true, true⟩ 7 5).1
          = pre ++ [CallEvent.acquire_runtime, CallEvent.unix_error_ev 7 5])
    ∧ (ctypes_call_run ⟨false, true⟩ 7 5).2 = none := by
  constructor
  · have h := ((c3_errno_check ⟨true, true⟩ 7 5).1 rfl).2.1 (by decide)
    exact ⟨h.1, h.2 rfl⟩
  · exact ((c3_errno_check ⟨false, true⟩ 7 5).2 rfl).1

/-- C2 counterexample: on the expired-closure path of `callback_handler`
with `releaseLock` set, the bridge acquires the runtime lock and then raises
without a matching release — the lock walk ends with the lock held (`some
true`), not restored to the entry state (`some false`), refuting "every
bridge-side acquire is matched by a release on every path". -/
theorem c2_counterexample :
    (callback_handler_run true no_resolver 0 [] 0).2
        = some CbErr.expiredClosure
    ∧ cb_lock_events (callback_handler_run true no_resolver 0 [] 0).1
        = [LockEv.acq]
    ∧ lock_walk false
        (cb_lock_events (callback_handler_run true no_resolver 0 [] 0).1)
        ≠ some false := by
  refine ⟨rfl, rfl, by decide⟩

/-- C2 (amended): `ctypes_call` releases the runtime lock iff the context's
flag is set and its lock trace is balanced in LIFO order on every path,
including the errno error path (the walk from the held state is valid and
ends held).  `callback_handler` acquires iff the flag is set and its lock
trace is balanced LIFO on every normally-returning path; but on the
expired-closure path the acquired lock is deliberately not released — the
walk ends in the held state exactly when the flag is set, so the managed
exception propagates with the lock held rather than restored. -/
theorem c2_lock_discipline :
    (∀ (ctx : call_context) (fn e : Nat),
        call_lock_events (ctypes_call_run ctx fn e).1
          = (if ctx.runtime_lock then [LockEv.rel, LockEv.acq] else [])
        ∧ lock_walk true (call_lock_events (ctypes_call_run ctx fn e).1)
            = some true)
    ∧ (∀ (lock : Bool) (resolver : Nat → Option Boxedfn) (key : Nat)
          (args : List Nat) (ret : Nat),
        ((callback_handler_run lock resolver key args ret).2 = none →
          cb_lock_events (callback_handler_run lock resolver key args ret).1
            = (if lock then [LockEv.acq, LockEv.rel] else [])
          ∧ lock_walk false
              (cb_lock_events
                (callback_handler_run lock resolver key args ret).1)
              = some false)
        ∧ ((callback_handler_run lock resolver key args ret).2
              = some CbErr.expiredClosure →
            cb_lock_events (callback_handler_run lock resolver key args ret).1
              = (if lock then [LockEv.acq] else [])
            ∧ lock_walk false
                (cb_lock_events
                  (callback_handler_run lock resolver key args ret).1)
                = some lock)) := by
  constructor
  · intro ctx fn e
    obtain ⟨ce, rl⟩ := ctx
    cases ce <;> cases rl <;> by_cases he : e = 0 <;>
      simp [ctypes_call_run, he, call_lock_events, lock_walk]
  · intro lock resolver key args ret
    constructor
    · intro h
      cases hres : resolver key with
      | none =>
        exfalso
        simp [callback_handler_run, hres] at h
      | some bf =>
        rcases hd : drive_steps (cb_oargs args) bf with ⟨tr, r⟩
        have hlk : cb_lock_events tr = [] := by
          have h' := drive_steps_lock_events (cb_oargs args) bf
          rw [hd] at h'
          exact h'
        cases r with
        | none =>
          exfalso
          simp [callback_handler_run, hres, hd] at h
        | some b =>
          cases b with
          | Fn f =>
            exfalso
            simp [callback_handler_run, hres, hd] at h
          | Done =>
            have htr : callback_handler_run lock resolver key args ret
                = ((if lock then [CbEvent.acquire_lock] else []) ++ tr
                    ++ [CbEvent.done_apply ret]
                    ++ (if lock then [CbEvent.release_lock] else []), none) := by
              simp [callback_handler_run, hres, hd]
            rw [htr]
            cases lock <;>
              · simp only [cb_lock_events_append, hlk]
                simp [cb_lock_events, lock_walk]
    · intro h
      cases hres : resolver key with
      | some bf =>
        exfalso
        rcases hd : drive_steps (cb_oargs args) bf with ⟨tr, r⟩
        cases r with
        | none => simp [callback_handler_run, hres, hd] at h
        | some b =>
          cases b with
          | Fn f => simp [callback_handler_run, hres, hd] at h
          | Done => simp [callback_handler_run, hres, hd] at h
      | none =>
        have htr : callback_handler_run lock resolver key args ret
            = ((if lock then [CbEvent.acquire_lock] else []),
                some CbErr.expiredClosure) := by
          simp [callback_handler_run, hres]
        rw [htr]
        cases lock <;> simp [cb_lock_events, lock_walk]

/-- C2 witness: the lock discipline evaluated at a checked, lock-releasing
invocation with errno code 1, and at a normally-returning trampoline
re-entry with the lock flag set. -/
theorem c2_witness :
    (call_lock_events (ctypes_call_run ⟨true, true⟩ 3 1).1
        = (if (true : Bool) then [LockEv.rel, LockEv.acq] else [])
      ∧ lock_walk true (call_lock_events (ctypes_call_run ⟨true, true⟩ 3 1).1)
          = some true)
    ∧ cb_lock_events (callback_handler_run true unit_resolver 0 [] 0).1
        = (if (true : Bool) then [LockEv.acq, LockEv.rel] else []) := by
  constructor
  · exact c2_lock_discipline.1 ⟨true, true⟩ 3 1
  · exact ((c2_lock_discipline.2 true unit_resolver 0 [] 0).1 rfl).1

/-- `getD` through an `Option.map`-mapped list. -/
theorem getD_map_option (f : Nat × Nat → Nat) :
    ∀ (l : List (Option (Nat × Nat))) (i : Nat),
      (l.map (Option.map f)).getD i none = (l.getD i none).map f := by
  intro l
  induction l with
  | nil => intro i; cases i <;> rfl
  | cons x xs ih =>
    intro i
    cases i with
    | zero => rfl
    | succ i => simpa [List.getD_cons_succ] using ih i

/-- C7 counterexample: a trampoline over a zero-argument specification does
NOT apply the terminal step directly — the handler drives one step
application (on the unit value) before the `Done` application, so the bridge
trace is `[step unit, done]` rather than `[done]`. -/
theorem c7_counterexample :
    cb_bridge_events (callback_handler_run false unit_resolver 0 [] 5).1
        = [CbEvent.step_apply OArg.unit, CbEvent.done_apply 5]
    ∧ [CbEvent.step_apply OArg.unit, CbEvent.done_apply 5]
        ≠ [CbEvent.done_apply 5] := by
  refine ⟨rfl, by decide⟩

/-- C7 (amended): for a resolved chain matching the foreign arity, the
bridge performs exactly one step application per native argument address, in
argument order, followed by exactly one `Done` application on the return
slot — and for arity 0 it performs exactly one step application on the unit
value followed by the `Done` application (not the terminal step directly). -/
theorem c7_step_done :
    ∀ (lock : Bool) (resolver : Nat → Option Boxedfn) (key : Nat)
      (args : List Nat) (ret : Nat) (chain : Boxedfn),
      resolver key = some chain →
      (args ≠ [] → ChainFits chain args.length →
        cb_bridge_events (callback_handler_run lock resolver key args ret).1
          = args.map (fun a => CbEvent.step_apply (OArg.addr a))
            ++ [CbEvent.done_apply ret]
        ∧ (callback_handler_run lock resolver key args ret).2 = none)
      ∧ (args = [] → ChainFits chain 1 →
        cb_bridge_events (callback_handler_run lock resolver key args ret).1
          = [CbEvent.step_apply OArg.unit, CbEvent.done_apply ret]
        ∧ (callback_handler_run lock resolver key args ret).2 = none) := by
  intro lock resolver key args ret chain hres
  constructor
  · intro hne hfits
    have hoargs : cb_oargs args = args.map OArg.addr := by
      cases args with
      | nil => exact absurd rfl hne
      | cons x xs => simp [cb_oargs]
    have hlen : (cb_oargs args).length = args.length := by
      rw [hoargs, List.length_map]
    have hd := drive_steps_of_fits (cb_oargs args) chain
      (by rw [hlen]; exact hfits)
    have htr : callback_handler_run lock resolver key args ret
        = ((if lock then [CbEvent.acquire_lock] else [])
            ++ (cb_oargs args).map CbEvent.step_apply
            ++ [CbEvent.done_apply ret]
            ++ (if lock then [CbEvent.release_lock] else []), none) := by
      simp [callback_handler_run, hres, hd]
    rw [htr]
    refine ⟨?_, rfl⟩
    simp only [cb_bridge_events_append, cb_bridge_events_steps]
    rw [hoargs]
    cases lock <;> simp [cb_bridge_events, List.map_map, Function.comp]
  · intro hnil hfits
    subst hnil
    have hd := drive_steps_of_fits [OArg.unit] chain hfits
    have htr : callback_handler_run lock resolver key [] ret
        = ((if lock then [CbEvent.acquire_lock] else [])
            ++ [CbEvent.step_apply OArg.unit]
            ++ [CbEvent.done_apply ret]
            ++ (if lock then [CbEvent.release_lock] else []), none) := by
      simp [callback_handler_run, hres, cb_oargs, hd]
    rw [htr]
    refine ⟨?_, rfl⟩
    cases lock <;> simp [cb_bridge_events]

/-- C7 witness: a two-argument trampoline invocation drives exactly two step
applications (addresses 10 then 20) and one `Done` application. -/
theorem c7_witness :
    cb_bridge_events (callback_handler_run false two_resolver 0 [10, 20] 0).1
        = [10, 20].map (fun a => CbEvent.step_apply (OArg.addr a))
          ++ [CbEvent.done_apply 0]
    ∧ (callback_handler_run false two_resolver 0 [10, 20] 0).2 = none := by
  refine (c7_step_done false two_resolver 0 [10, 20] 0 two_chain rfl).1
    (by decide) ?_
  exact ChainFits.fn _ _ (fun a => ChainFits.fn _ _ (fun b => ChainFits.done))

/-- C9: when the resolver fails for the trampoline's key, the bridge ends
with the expired-closure condition and applies no step of any managed
function: the bridge-event projection of the trace is empty. -/
theorem c9_expired_closure :
    ∀ (lock : Bool) (resolver : Nat → Option Boxedfn) (key : Nat)
      (args : List Nat) (ret : Nat),
      resolver key = none →
      (callback_handler_run lock resolver key args ret).2
          = some CbErr.expiredClosure
      ∧ cb_bridge_events (callback_handler_run lock resolver key args ret).1
          = [] := by
  intro lock resolver key args ret h
  have htr : callback_handler_run lock resolver key args ret
      = ((if lock then [CbEvent.acquire_lock] else []),
          some CbErr.expiredClosure) := by
    simp [callback_handler_run, h]
  rw [htr]
  exact ⟨rfl, by cases lock <;> simp [cb_bridge_events]⟩

/-- C9 witness: a revoked key with two pending native arguments yields the
expired-closure condition and no chain application. -/
theorem c9_witness :
    (callback_handler_run true no_resolver 5 [1, 2] 9).2
        = some CbErr.expiredClosure
    ∧ cb_bridge_events (callback_handler_run true no_resolver 5 [1, 2] 9).1
        = [] :=
  c9_expired_closure true no_resolver 5 [1, 2] 9 rfl

/-- C8: after the fix-up loop, an argument for which the writer handed back
externally-owned bytes has its pointer-array slot redirected to the
`val_refs` entry holding the external byte address (base plus offset), while
an argument for which the writer returned nothing keeps its in-buffer
storage address at the populated offset. -/
theorem c8_slot_overwrite :
    ∀ (args : List ffi_type) (outs : List (Option (Nat × Nat))) (i : Nat),
      outs.length = args.length →
      i < args.length →
      (∀ b off, outs.getD i none = some (b, off) →
          (ctypes_call_slots args outs).getD i (SlotAddr.buf 0)
            = SlotAddr.valref i
          ∧ (ctypes_call_val_refs outs).getD i none = some (b + off))
      ∧ (outs.getD i none = none →
          (ctypes_call_slots args outs).getD i (SlotAddr.buf 0)
            = SlotAddr.buf ((populate_arg_array args).getD i 0)) := by
  intro args outs i hlen hi
  have hpop : (populate_arg_array args).length = args.length :=
    arg_offsets_from_length args 0
  have hs := override_slots_getD ((populate_arg_array args).map SlotAddr.buf)
    outs 0 i (by simp [hpop, hi]) (by rw [hlen]; exact hi)
  constructor
  · intro b off hout
    constructor
    · unfold ctypes_call_slots
      rw [hs, hout]
      simp
    · unfold ctypes_call_val_refs
      rw [getD_map_option, hout]
      rfl
  · intro hout
    unfold ctypes_call_slots
    rw [hs, hout]
    exact getD_map_buf (populate_arg_array args) i (by rw [hpop]; exact hi)

/-- C8 witness: a two-argument call in which the writer hands back external
bytes (base 100, offset 2) for the first argument only. -/
theorem c8_witness :
    ((ctypes_call_slots [⟨4, 4⟩, ⟨8, 8⟩] [some (100, 2), none]).getD 0
          (SlotAddr.buf 0) = SlotAddr.valref 0
      ∧ (ctypes_call_val_refs [some (100, 2), none]).getD 0 none = some 102)
    ∧ (ctypes_call_slots [⟨4, 4⟩, ⟨8, 8⟩] [some (100, 2), none]).getD 1
          (SlotAddr.buf 0)
        = SlotAddr.buf ((populate_arg_array [⟨4, 4⟩, ⟨8, 8⟩]).getD 1 0) := by
  constructor
  · exact (c8_slot_overwrite [⟨4, 4⟩, ⟨8, 8⟩] [some (100, 2), none] 0 rfl
      (by decide)).1 100 2 rfl
  · exact (c8_slot_overwrite [⟨4, 4⟩, ⟨8, 8⟩] [some (100, 2), none] 1 rfl
      (by decide)).2 rfl
